import Mathlib

/-!
Verification of the open-retrievals reranking core
(`src/retrievals/models/rerank.py` and `src/retrievals/losses/infonce.py`).

The Python code is shallowly embedded: tokenizer encodings become lists of
natural numbers, document splitting becomes a fuel-indexed loop over integer
window indices (`Int` because Python window arithmetic can go negative),
failures (`IndexError`, `KeyError`, `raise ValueError`) become `Option`/`Except`
values, and float scores become rationals (aggregation) or reals (similarity).
-/

/-- The result of `tokenizer.encode_plus`: a dict with `input_ids`,
`attention_mask` and, for some tokenizers, `token_type_ids`. -/
structure Encoding where
  input_ids : List Nat
  attention_mask : List Nat
  token_type_ids : Option (List Nat)
deriving DecidableEq, Repr

/-- The tokenizer collaborator used by `DocumentSplitter.create_documents`:
`encode_plus(query, truncation=False, padding=False)` (special tokens added),
`encode_plus(document, ..., add_special_tokens=False)`, and `sep_token_id`. -/
structure Tokenizer where
  encodeWithSpecial : String → Encoding
  encodeNoSpecial : String → Encoding
  sep_token_id : Nat

/-- Python list slicing `v[s:e]` (step 1): negative indices count from the end,
then both bounds are clamped into `[0, len(v)]`. -/
def pySlice (s e : Int) (l : List α) : List α :=
  let n : Int := l.length
  let s' : Int := if s < 0 then max (n + s) 0 else min s n
  let e' : Int := if e < 0 then max (n + e) 0 else min e n
  (l.drop s'.toNat).take (e' - s').toNat

/-- `{k: v[start_id:end_id] for k, v in document_inputs.items()}`
(rerank.py line 560): every field of the encoding is sliced alike. -/
def sliceEncoding (enc : Encoding) (s e : Int) : Encoding :=
  ⟨pySlice s e enc.input_ids, pySlice s e enc.attention_mask,
    enc.token_type_ids.map (pySlice s e)⟩

/-- `DocumentSplitter._merge_inputs` (rerank.py lines 568-582).
`chunk2['attention_mask'][0]` raises `IndexError` when the document chunk is
empty, and `chunk2['token_type_ids']` raises `KeyError` when only the query
encoding tracks token types; both failures are modelled as `none`. -/
def mergeInputs (chunk1 chunk2 : Encoding) (sepId : Nat) : Option Encoding :=
  match chunk2.attention_mask with
  | [] => none
  | m0 :: rest =>
    let ids := chunk1.input_ids ++ sepId :: (chunk2.input_ids ++ [sepId])
    let mask := chunk1.attention_mask ++ m0 :: ((m0 :: rest) ++ [m0])
    match chunk1.token_type_ids, chunk2.token_type_ids with
    | some t1, some t2 => some ⟨ids, mask, some (t1 ++ List.replicate (t2.length + 2) 1)⟩
    | some _, none => none
    | none, _ => some ⟨ids, mask, none⟩

/-- `DocumentSplitter.__init__` configuration (rerank.py lines 535-538). -/
structure DocumentSplitter where
  chunk_size : Int
  chunk_overlap : Int
  max_chunks_per_doc : Int

/-- The window-sliding loop of `create_documents` (rerank.py lines 557-565),
recording the raw `(start_id, end_id)` pair of each iteration.  The loop is
fuel-indexed because it need not terminate; `none` means the fuel ran out. -/
def slideWindows (dml overlap L : Int) : Nat → Int → Option (List (Int × Int))
  | 0, _ => none
  | fuel + 1, startId =>
    if startId < L then
      let endId := startId + dml
      let nextId := if endId < L then endId - overlap else endId
      match slideWindows dml overlap L fuel nextId with
      | some ws => some ((startId, endId) :: ws)
      | none => none
    else
      some []

/-- Sequential `Option`-valued map: the first failing merge aborts the whole
run, as an uncaught Python exception would. -/
def mapOption (f : α → Option β) : List α → Option (List β)
  | [] => some []
  | a :: t =>
    match f a with
    | none => none
    | some b =>
      match mapOption f t with
      | none => none
      | some bs => some (b :: bs)

/-- Processing of one document inside `create_documents` (rerank.py lines
548-565): one merged chunk when the document fits in `doc_max_length`,
otherwise one merged chunk per sliding window. -/
def processDoc (dml overlap : Int) (fuel : Nat) (queryInputs : Encoding)
    (sepId : Nat) (documentInputs : Encoding) : Option (List Encoding) :=
  let L : Int := documentInputs.input_ids.length
  if L ≤ dml then
    (mergeInputs queryInputs documentInputs sepId).map (fun c => [c])
  else
    match slideWindows dml overlap L fuel 0 with
    | none => none
    | some ws =>
      mapOption (fun w => mergeInputs queryInputs (sliceEncoding documentInputs w.1 w.2) sepId) ws

/-- The `for pid, document in enumerate(documents)` loop of `create_documents`,
accumulating chunks and their owning document ids. -/
def createDocsLoop (dml overlap : Int) (fuel : Nat) (queryInputs : Encoding)
    (sepId : Nat) (tok : Tokenizer) : Nat → List String → Option (List Encoding × List Nat)
  | _, [] => some ([], [])
  | pid, document :: rest =>
    match processDoc dml overlap fuel queryInputs sepId (tok.encodeNoSpecial document) with
    | none => none
    | some chunks =>
      match createDocsLoop dml overlap fuel queryInputs sepId tok (pid + 1) rest with
      | none => none
      | some (cs, ps) => some (chunks ++ cs, List.replicate chunks.length pid ++ ps)

/-- `DocumentSplitter.create_documents` (rerank.py lines 540-566).
`doc_max_length = chunk_size - len(query_inputs['input_ids']) - 2`; the
`max_chunks_per_doc` field is never read. -/
def DocumentSplitter.createDocuments (sp : DocumentSplitter) (fuel : Nat)
    (query : String) (documents : List String) (tok : Tokenizer) :
    Option (List Encoding × List Nat) :=
  let queryInputs := tok.encodeWithSpecial query
  let sepId := tok.sep_token_id
  let dml : Int := sp.chunk_size - queryInputs.input_ids.length - 2
  createDocsLoop dml sp.chunk_overlap fuel queryInputs sepId tok 0 documents

/-- A concrete character-level tokenizer used for witnesses: one token per
character, attention mask all ones, no token-type ids, separator id 0. -/
def charTok : Tokenizer where
  encodeWithSpecial s := ⟨s.data.map Char.toNat, List.replicate s.length 1, none⟩
  encodeNoSpecial s := ⟨s.data.map Char.toNat, List.replicate s.length 1, none⟩
  sep_token_id := 0

/-- The chunk-score aggregation of `AutoModelForRanking.rerank` (rerank.py
lines 266-268): scores start at `0` per document and each chunk's score is
folded in with `max`.  Scores are modelled as rationals; the source guarantees
every `pid` is a valid index into `merge_scores`. -/
def mergeScores (n : Nat) (pids : List Nat) (scores : List ℚ) : List ℚ :=
  (pids.zip scores).foldl
    (fun acc ps => acc.set ps.1 (max (acc.getD ps.1 0) ps.2))
    (List.replicate n 0)

/-- Spec-side definition, following the words of the claim: the scores of the
chunks whose `owning_document_id` is `d`. -/
def chunkScores (d : Nat) (pids : List Nat) (scores : List ℚ) : List ℚ :=
  ((pids.zip scores).filter (fun ps => ps.1 == d)).map (fun ps => ps.2)

/-- `np.argsort(merge_scores)[::-1]` (rerank.py line 270): indices sorted by
ascending score, then reversed.  numpy's default sort is not stable, so tie
order is a model choice; no claim depends on it. -/
def argsortDesc (l : List ℚ) : List Nat :=
  ((List.range l.length).mergeSort (fun i j => decide (l.getD i 0 ≤ l.getD j 0))).reverse

/-- The dict returned by `rerank`.  The early-exit branch returns empty lists
(under keys `rerank_documents`/`rerank_scores`); the main branch fills all
three fields. -/
structure RerankResult where
  rerank_document : List String
  rerank_scores : List ℚ
  rerank_ids : List Nat
deriving DecidableEq, Repr

/-- `AutoModelForRanking.rerank` (rerank.py lines 231-284).  The encoder-based
`compute_score` is an external collaborator, abstracted as `scoreFn` applied
to each chunk.  The query is `Option String` so that `query is None` is
representable. -/
def AutoModelForRanking.rerank (tok : Tokenizer) (scoreFn : Encoding → ℚ)
    (fuel : Nat) (query : Option String) (documents : List String)
    (chunk_max_length chunk_overlap max_chunks_per_doc : Int) :
    Option RerankResult :=
  if query = none ∨ (query.getD "").length = 0 ∨ documents.length = 0 then
    some ⟨[], [], []⟩
  else
    let sp : DocumentSplitter := ⟨chunk_max_length, chunk_overlap, max_chunks_per_doc⟩
    match sp.createDocuments fuel (query.getD "") documents tok with
    | none => none
    | some (chunks, pids) =>
      let tot_scores := chunks.map scoreFn
      let merged := mergeScores documents.length pids tot_scores
      let ord := argsortDesc merged
      some ⟨ord.map (fun i => documents.getD i ""),
            ord.map (fun i => merged.getD i 0), ord⟩

/-- Row dot product, the elementwise-multiply-and-sum at the heart of the
tensor contractions in `ColBERT.score` and `InfoNCE.forward`. -/
def dotR (u v : List ℝ) : ℝ := (List.zipWith (fun a b => a * b) u v).sum

/-- Per-pair semantics of the `cosine` branch of `ColBERT.score` (rerank.py
line 456): `(q @ d.permute(0,2,1)).max(2).values.sum(1)` — for each query
token row take the greatest dot product against the document token rows, then
sum; `none` models torch's error on an empty max dimension. -/
noncomputable def ColBERT.scoreCosinePair (q d : List (List ℝ)) : Option ℝ :=
  (q.mapM (fun qi => (d.map (dotR qi)).max?)).map List.sum

/-- Per-pair semantics of the `l2` branch of `ColBERT.score` (rerank.py lines
459-463): greatest negated squared Euclidean distance per query token, summed. -/
noncomputable def ColBERT.scoreL2Pair (q d : List (List ℝ)) : Option ℝ :=
  (q.mapM (fun qi =>
    (d.map (fun dj =>
      -1 * ((List.zipWith (fun a b => a - b) qi dj).map (fun x => x ^ 2)).sum)).max?)).map
    List.sum

/-- `ColBERT.score` (rerank.py lines 449-465) over a batch of query/document
token matrices; an unknown metric raises `ValueError`. -/
noncomputable def ColBERT.score (similarity_metric : String)
    (q d : List (List (List ℝ))) : Except String (List ℝ) :=
  if similarity_metric = "cosine" then
    match (q.zip d).mapM (fun p => ColBERT.scoreCosinePair p.1 p.2) with
    | some s => .ok s
    | none => .error "empty reduction dimension"
  else if similarity_metric = "l2" then
    match (q.zip d).mapM (fun p => ColBERT.scoreL2Pair p.1 p.2) with
    | some s => .ok s
    | none => .error "empty reduction dimension"
  else
    .error "similarity_metric should be cosine or l2"

/-- Euclidean norm of a row vector. -/
noncomputable def l2norm (v : List ℝ) : ℝ := Real.sqrt ((v.map (fun x => x ^ 2)).sum)

/-- Spec-side definition, following the words of the claim: the cosine
similarity of two token vectors. -/
noncomputable def cosineSim (u v : List ℝ) : ℝ := dotR u v / (l2norm u * l2norm v)

/-- Spec-side definition, following the words of the claim: per query token
the maximum cosine similarity against all document tokens, summed ("MaxSim"). -/
noncomputable def specMaxSimCosinePair (q d : List (List ℝ)) : Option ℝ :=
  (q.mapM (fun qi => (d.map (cosineSim qi)).max?)).map List.sum

/-- `F.normalize(x, dim=-1)`: divide each row by `max(‖row‖₂, 1e-12)`. -/
noncomputable def fNormalize (v : List ℝ) : List ℝ :=
  v.map (fun x => x / max (l2norm v) (1 / 10 ^ 12))

/-- A negative-embeddings tensor can be 2-D (`unpaired`: a shared pool) or 3-D
(`paired`: one negative set per query). -/
inductive NegTensor where
  | t2 (m : List (List ℝ))
  | t3 (m : List (List (List ℝ)))

/-- `InfoNCE.__init__` state (infonce.py lines 22-31): a pluggable criterion
taking `(logits, integer_labels)`, a temperature, and a negative mode. -/
structure InfoNCE where
  criterion : List (List ℝ) → List Nat → ℝ
  temperature : ℝ
  negative_mode : String

/-- Divide every logit by the temperature. -/
noncomputable def matScale (t : ℝ) (m : List (List ℝ)) : List (List ℝ) :=
  m.map (fun r => r.map (fun x => x / t))

/-- The `ValueError` message of `InfoNCE.forward` (infonce.py line 64). -/
def invalidModeMsg (s : String) : String :=
  "negative mode could chose unpaired or paired, while got " ++ s

/-- `InfoNCE.forward` (infonce.py lines 33-69).  Embeddings are row matrices;
`raise ValueError` becomes `Except.error`.  Rank/shape mismatches between the
negative tensor and the chosen mode surface as torch shape errors, modelled as
a distinct error value. -/
noncomputable def InfoNCE.forward (m : InfoNCE) (q p : List (List ℝ))
    (neg : Option NegTensor) : Except String ℝ :=
  let q' := q.map fNormalize
  let p' := p.map fNormalize
  match neg with
  | none =>
    let logits1 := q'.map (fun qi => p'.map (dotR qi))
    let logits2 := logits1.transpose
    let labels := List.range logits1.length
    .ok ((m.criterion (matScale m.temperature logits1) labels +
          m.criterion (matScale m.temperature logits2) labels) / 2)
  | some nt =>
    let positive_logit := List.zipWith dotR q' p'
    if m.negative_mode = "unpaired" then
      match nt with
      | .t2 n2 =>
        let n' := n2.map fNormalize
        let negative_logits := q'.map (fun qi => n'.map (dotR qi))
        let logits := List.zipWith (fun pl nl => pl :: nl) positive_logit negative_logits
        .ok (m.criterion (matScale m.temperature logits) (List.replicate logits.length 0))
      | .t3 _ => .error "tensor shape mismatch"
    else if m.negative_mode = "paired" then
      match nt with
      | .t2 n2 =>
        -- torch broadcasts `[N,1,D] @ [D,K]` to `[N,1,K]`; after `squeeze(1)`
        -- this coincides with the unpaired contraction.
        let n' := n2.map fNormalize
        let negative_logits := q'.map (fun qi => n'.map (dotR qi))
        let logits := List.zipWith (fun pl nl => pl :: nl) positive_logit negative_logits
        .ok (m.criterion (matScale m.temperature logits) (List.replicate logits.length 0))
      | .t3 n3 =>
        if n3.length = q.length then
          let n' := n3.map (fun s => s.map fNormalize)
          let negative_logits := List.zipWith (fun qi ni => ni.map (dotR qi)) q' n'
          let logits := List.zipWith (fun pl nl => pl :: nl) positive_logit negative_logits
          .ok (m.criterion (matScale m.temperature logits) (List.replicate logits.length 0))
        else .error "tensor shape mismatch"
    else
      .error (invalidModeMsg m.negative_mode)

theorem foldl_set_getD (d : Nat) (l : List (Nat × ℚ)) :
    ∀ acc : List ℚ, d < acc.length →
      (l.foldl (fun a ps => a.set ps.1 (max (a.getD ps.1 0) ps.2)) acc).getD d 0 =
        ((l.filter (fun ps => ps.1 == d)).map (fun ps => ps.2)).foldl max (acc.getD d 0) := by
  induction l with
  | nil => intro acc _; rfl
  | cons ps t ih =>
    intro acc hd
    simp only [List.foldl_cons, List.filter_cons]
    by_cases hp : ps.1 = d
    · rw [if_pos (by simpa using hp), List.map_cons, List.foldl_cons,
        ih _ (by simpa using hd), hp]
      congr 1
      simp [List.getD_eq_getElem?_getD, List.getElem?_set_self (by simpa [hp] using hd)]
    · rw [if_neg (by simpa using hp), ih _ (by simpa using hd)]
      congr 1
      simp [List.getD_eq_getElem?_getD, List.getElem?_set_ne hp]

theorem le_foldl_max : ∀ (l : List ℚ) (a : ℚ), a ≤ l.foldl max a := by
  intro l
  induction l with
  | nil => intro a; exact le_refl a
  | cons x t ih => intro a; exact le_trans (le_max_left a x) (ih (max a x))

theorem foldl_max_le (b : ℚ) :
    ∀ (l : List ℚ) (a : ℚ), a ≤ b → (∀ x ∈ l, x ≤ b) → l.foldl max a ≤ b := by
  intro l
  induction l with
  | nil => intro a ha _; exact ha
  | cons x t ih =>
    intro a ha hl
    exact ih (max a x) (max_le ha (hl x (by simp))) (fun y hy => hl y (by simp [hy]))

theorem mem_le_foldl_max (m : ℚ) :
    ∀ (l : List ℚ) (a : ℚ), m ∈ l → m ≤ l.foldl max a := by
  intro l
  induction l with
  | nil => intro a h; cases h
  | cons x t ih =>
    intro a h
    simp only [List.foldl_cons]
    rcases List.mem_cons.mp h with h | h
    · rw [h]
      exact le_trans (le_max_right a x) (le_foldl_max t (max a x))
    · exact ih (max a x) h

/-- C1 (counterexample): a single document whose only chunk scores `-1` has
chunk-score maximum `-1`, but `rerank` merges it to `0` — the zero seed of the
aggregation masks all-negative chunk scores. -/
theorem mergeScores_all_negative_cex :
    chunkScores 0 [0] [(-1 : ℚ)] = [-1] ∧
    (mergeScores 1 [0] [(-1 : ℚ)]).getD 0 0 = 0 ∧ (0 : ℚ) ≠ -1 := by
  refine ⟨by decide, by decide, by decide⟩

/-- C1 (amended): the merged score of document `d` equals the maximum `m` of
the scores of `d`'s chunks whenever that maximum is nonnegative; when every
chunk score of `d` is negative the merged score is the `0` seed instead. -/
theorem mergeScores_max_of_nonneg (n : Nat) (pids : List Nat) (scores : List ℚ)
    (d : Nat) (m : ℚ) (hd : d < n) (hm : m ∈ chunkScores d pids scores)
    (hub : ∀ s ∈ chunkScores d pids scores, s ≤ m) (h0 : 0 ≤ m) :
    (mergeScores n pids scores).getD d 0 = m := by
  unfold mergeScores
  rw [foldl_set_getD d _ _ (by simpa using hd)]
  have hacc : (List.replicate n (0 : ℚ)).getD d 0 = 0 := by
    simp [List.getD_eq_getElem?_getD, List.getElem?_replicate_of_lt hd]
  rw [hacc]
  unfold chunkScores at hm hub
  exact le_antisymm (foldl_max_le m _ 0 h0 hub) (mem_le_foldl_max m _ 0 hm)

/-- C1 (witness): with one document whose chunk scores `2`, the merged score
is `2`, the chunk-score maximum. -/
theorem mergeScores_max_of_nonneg_witness :
    0 < 1 ∧ (2 : ℚ) ∈ chunkScores 0 [0] [(2 : ℚ)] ∧
    (∀ s ∈ chunkScores 0 [0] [(2 : ℚ)], s ≤ 2) ∧ (0 : ℚ) ≤ 2 ∧
    (mergeScores 1 [0] [(2 : ℚ)]).getD 0 0 = 2 := by
  exact ⟨by decide, by decide, by decide, by decide,
    mergeScores_max_of_nonneg 1 [0] [(2 : ℚ)] 0 2 (by decide) (by decide)
      (by decide) (by decide)⟩

/-- C8: `rerank` with a `None` query, an empty query, or an empty documents
list returns the empty-result mapping immediately, with no error. -/
theorem rerank_empty_inputs (tok : Tokenizer) (scoreFn : Encoding → ℚ) (fuel : Nat)
    (documents : List String) (query : Option String) (cml ov mc : Int) :
    AutoModelForRanking.rerank tok scoreFn fuel none documents cml ov mc =
      some ⟨[], [], []⟩ ∧
    AutoModelForRanking.rerank tok scoreFn fuel (some "") documents cml ov mc =
      some ⟨[], [], []⟩ ∧
    AutoModelForRanking.rerank tok scoreFn fuel query [] cml ov mc =
      some ⟨[], [], []⟩ := by
  refine ⟨?_, ?_, ?_⟩ <;> simp [AutoModelForRanking.rerank]

/-- C10: `create_documents` never reads `max_chunks_per_doc` — two runs that
differ only in that parameter return identical chunks and owning ids — and a
splitter capped at 1 chunk per document still emits 3 chunks for one document. -/
theorem createDocuments_max_chunks_ignored :
    (∀ (cs ov m1 m2 : Int) (fuel : Nat) (q : String) (docs : List String)
      (tok : Tokenizer),
      DocumentSplitter.createDocuments ⟨cs, ov, m1⟩ fuel q docs tok =
        DocumentSplitter.createDocuments ⟨cs, ov, m2⟩ fuel q docs tok) ∧
    (DocumentSplitter.createDocuments ⟨8, 1, 1⟩ 20 "ab" ["abcdefghi"] charTok).map
      (fun r => r.2.length) = some 3 ∧ (1 : Int) < 3 := by
  exact ⟨fun _ _ _ _ _ _ _ _ => rfl, by decide, by decide⟩

/-- C9 (counterexample): with no negative embeddings, `InfoNCE.forward` never
consults `negative_mode`; an invalid mode returns a loss, not a `ValueError`. -/
theorem infonce_absent_negatives_no_error_cex :
    ("bad" ≠ "unpaired" ∧ "bad" ≠ "paired") ∧
    InfoNCE.forward ⟨fun _ _ => 0, 1, "bad"⟩ [[1]] [[1]] none = .ok 0 := by
  refine ⟨⟨by decide, by decide⟩, ?_⟩
  simp [InfoNCE.forward]

/-- C9 (amended): an unrecognized `negative_mode` fails with the
invalid-argument `ValueError` whenever negative embeddings are present, for
every query/positive/negative combination; with absent negatives the mode is
ignored and a loss is returned. -/
theorem infonce_invalid_mode_error (m : InfoNCE) (q p : List (List ℝ))
    (nt : NegTensor) (h1 : m.negative_mode ≠ "unpaired")
    (h2 : m.negative_mode ≠ "paired") :
    InfoNCE.forward m q p (some nt) = .error (invalidModeMsg m.negative_mode) ∧
    ∃ v, InfoNCE.forward m q p none = .ok v := by
  constructor
  · simp [InfoNCE.forward, h1, h2]
  · exact ⟨_, rfl⟩

/-- C9 (witness): the invalid mode "x" with a present 2-D negative tensor
yields the `ValueError`, and with absent negatives yields a loss. -/
theorem infonce_invalid_mode_error_witness :
    ("x" : String) ≠ "unpaired" ∧ ("x" : String) ≠ "paired" ∧
    (InfoNCE.forward ⟨fun _ _ => 0, 1, "x"⟩ [[1]] [[1]] (some (.t2 [[1]])) =
      .error (invalidModeMsg "x") ∧
    ∃ v, InfoNCE.forward ⟨fun _ _ => 0, 1, "x"⟩ [[1]] [[1]] none = .ok v) := by
  exact ⟨by decide, by decide,
    infonce_invalid_mode_error ⟨fun _ _ => 0, 1, "x"⟩ [[1]] [[1]] (.t2 [[1]])
      (by decide) (by decide)⟩

theorem slideWindows_succ (dml ov L : Int) (fuel : Nat) (startId : Int) :
    slideWindows dml ov L (fuel + 1) startId =
      if startId < L then
        match slideWindows dml ov L fuel
            (if startId + dml < L then startId + dml - ov else startId + dml) with
        | some ws => some ((startId, startId + dml) :: ws)
        | none => none
      else some [] := rfl

theorem slideWindows_stop (dml ov L : Int) (fuel : Nat) (startId : Int)
    (h : ¬ startId < L) : slideWindows dml ov L (fuel + 1) startId = some [] := by
  rw [slideWindows_succ, if_neg h]

theorem slideWindows_terminates (dml ov L : Int) (hpos : ov < dml) :
    ∀ (n : Nat) (startId : Int), L - startId ≤ n →
      ∃ ws, slideWindows dml ov L (n + 1) startId = some ws := by
  intro n
  induction n with
  | zero =>
    intro startId h
    exact ⟨[], slideWindows_stop dml ov L 0 startId (by omega)⟩
  | succ k ih =>
    intro startId h
    by_cases hs : startId < L
    · rw [slideWindows_succ, if_pos hs]
      by_cases he : startId + dml < L
      · rw [if_pos he]
        obtain ⟨ws, hws⟩ := ih (startId + dml - ov) (by omega)
        rw [hws]
        exact ⟨_, rfl⟩
      · rw [if_neg he]
        rw [slideWindows_stop dml ov L k (startId + dml) he]
        exact ⟨_, rfl⟩
    · exact ⟨[], slideWindows_stop dml ov L (k + 1) startId hs⟩

theorem slideWindows_diverges (dml ov L : Int) (hle : dml ≤ ov) (hL1 : 1 ≤ L)
    (hdL : dml < L) :
    ∀ (fuel : Nat) (startId : Int), startId ≤ 0 →
      slideWindows dml ov L fuel startId = none := by
  intro fuel
  induction fuel with
  | zero => intro s _; rfl
  | succ k ih =>
    intro s hs
    have h1 : s < L := by omega
    have h2 : s + dml < L := by omega
    rw [slideWindows_succ, if_pos h1, if_pos h2, ih (s + dml - ov) (by omega)]

/-- C6 (counterexample): with `chunk_size=5` and a 4-token query,
`doc_max_length = -1`; an empty document "exceeds" it (`0 > -1`) and
`chunk_overlap = 0 ≥ doc_max_length`, yet the loop terminates immediately
(zero iterations, zero chunks), so the claimed iff fails on empty documents. -/
theorem slideWindows_empty_doc_terminates_cex :
    (-1 : Int) < 0 ∧ ¬ ((0 : Int) < -1) ∧
    slideWindows (-1) 0 0 1 0 = some [] ∧
    DocumentSplitter.createDocuments ⟨5, 0, 32⟩ 1 "abcd" [""] charTok =
      some ([], []) := by
  refine ⟨by decide, by decide, by decide, by decide⟩

/-- C6 (amended): for a nonempty document longer than `doc_max_length`, the
window-sliding loop terminates (some fuel suffices) if and only if
`chunk_overlap < doc_max_length`; when `chunk_overlap ≥ doc_max_length` the
start index never strictly increases past the document end. -/
theorem slideWindows_terminates_iff (dml ov L : Int) (hdL : dml < L)
    (hL1 : 1 ≤ L) :
    (∃ fuel ws, slideWindows dml ov L fuel 0 = some ws) ↔ ov < dml := by
  constructor
  · rintro ⟨fuel, ws, hws⟩
    by_contra hlt
    push_neg at hlt
    rw [slideWindows_diverges dml ov L hlt hL1 hdL fuel 0 (le_refl 0)] at hws
    cases hws
  · intro h
    obtain ⟨ws, hws⟩ := slideWindows_terminates dml ov L h L.toNat 0 (by omega)
    exact ⟨L.toNat + 1, ws, hws⟩

/-- C6 (witness): with `doc_max_length = 2`, overlap 1 and a 3-token document
the loop terminates, in accordance with `1 < 2`. -/
theorem slideWindows_terminates_iff_witness :
    (2 : Int) < 3 ∧ (1 : Int) ≤ 3 ∧
    ((∃ fuel ws, slideWindows 2 1 3 fuel 0 = some ws) ↔ (1 : Int) < 2) := by
  exact ⟨by decide, by decide, slideWindows_terminates_iff 2 1 3 (by decide) (by decide)⟩

theorem slideWindows_spec (dml ov L : Int) (hov : 0 < ov) (hod : ov < dml) :
    ∀ (fuel : Nat) (startId : Int) (ws : List (Int × Int)),
      slideWindows dml ov L fuel startId = some ws → startId < L →
      (∃ e, ws.head? = some (startId, e)) ∧
      (∀ t, startId ≤ t → t < L → ∃ w ∈ ws, w.1 ≤ t ∧ t < min w.2 L) ∧
      List.Chain' (fun a b => min a.2 L - b.1 = ov) ws ∧
      (∀ w ∈ ws, w.2 = w.1 + dml ∧ startId ≤ w.1) := by
  intro fuel
  induction fuel with
  | zero => intro s ws h _; cases h
  | succ k ih =>
    intro s ws h hs
    rw [slideWindows_succ, if_pos hs] at h
    by_cases he : s + dml < L
    · rw [if_pos he] at h
      cases hrec : slideWindows dml ov L k (s + dml - ov) with
      | none => rw [hrec] at h; cases h
      | some ws' =>
        rw [hrec] at h
        injection h with h
        subst h
        have hnext : s + dml - ov < L := by omega
        obtain ⟨⟨e', hhead⟩, hcov, hchain, hform⟩ := ih (s + dml - ov) ws' hrec hnext
        refine ⟨⟨s + dml, rfl⟩, ?_, ?_, ?_⟩
        · intro t ht1 ht2
          by_cases htl : t < s + dml
          · exact ⟨(s, s + dml), List.mem_cons_self _ _, ht1, by simp; omega⟩
          · obtain ⟨w, hw, hw1, hw2⟩ := hcov t (by omega) ht2
            exact ⟨w, List.mem_cons_of_mem _ hw, hw1, hw2⟩
        · rw [List.chain'_cons']
          refine ⟨?_, hchain⟩
          intro b hb
          rw [hhead] at hb
          simp only [Option.mem_def, Option.some.injEq] at hb
          subst hb
          simp only
          omega
        · intro w hw
          rcases List.mem_cons.mp hw with hw | hw
          · rw [hw]; exact ⟨rfl, le_refl s⟩
          · obtain ⟨h1, h2⟩ := hform w hw
            exact ⟨h1, by omega⟩
    · rw [if_neg he] at h
      cases k with
      | zero =>
        rw [show slideWindows dml ov L 0 (s + dml) = none from rfl] at h
        cases h
      | succ k' =>
        rw [slideWindows_stop dml ov L k' (s + dml) he] at h
        injection h with h
        subst h
        refine ⟨⟨s + dml, rfl⟩, ?_, ?_, ?_⟩
        · intro t ht1 ht2
          refine ⟨(s, s + dml), List.mem_cons_self _ _, ht1, ?_⟩
          simp only
          omega
        · simp
        · intro w hw
          rcases List.mem_cons.mp hw with hw | hw
          · rw [hw]; exact ⟨rfl, le_refl s⟩
          · cases hw

/-- C2: for a document longer than `doc_max_length` (with
`0 < chunk_overlap < doc_max_length`), the emitted windows cover `[0, L)` with
no gaps, each consecutive pair overlaps by exactly `chunk_overlap` tokens, no
window exceeds `doc_max_length` tokens, and the `chunk_size=20, overlap=2`,
4-token-query, 30-token-document instance yields exactly
`[0,14), [12,26), [24,30)`. -/
theorem slideWindows_cover_overlap (dml ov L : Int) (hov : 0 < ov)
    (hod : ov < dml) (hdL : dml < L) :
    ∃ ws, slideWindows dml ov L (L.toNat + 1) 0 = some ws ∧
      (∀ t : Int, 0 ≤ t → t < L → ∃ w ∈ ws, w.1 ≤ t ∧ t < min w.2 L) ∧
      List.Chain' (fun a b => min a.2 L - b.1 = ov) ws ∧
      (∀ w ∈ ws, 0 ≤ w.1 ∧ min w.2 L - w.1 ≤ dml) ∧
      (dml = 14 → ov = 2 → L = 30 →
        ws.map (fun w => (w.1, min w.2 L)) = [(0, 14), (12, 26), (24, 30)]) := by
  obtain ⟨ws, hws⟩ := slideWindows_terminates dml ov L hod L.toNat 0 (by omega)
  have h0L : (0 : Int) < L := by omega
  obtain ⟨_, hcov, hchain, hform⟩ := slideWindows_spec dml ov L hov hod _ 0 ws hws h0L
  refine ⟨ws, hws, hcov, hchain, ?_, ?_⟩
  · intro w hw
    obtain ⟨h1, h2⟩ := hform w hw
    exact ⟨h2, by omega⟩
  · intro h14 h2 h30
    subst h14; subst h2; subst h30
    have hconc : slideWindows 14 2 30 ((30 : Int).toNat + 1) 0 =
        some [(0, 14), (12, 26), (24, 38)] := by decide
    rw [hconc] at hws
    injection hws with hws
    rw [← hws]
    decide

/-- C2 (witness): the general coverage/overlap theorem instantiated at
`doc_max_length = 14`, `chunk_overlap = 2`, document length 30. -/
theorem slideWindows_cover_overlap_witness :
    (0 : Int) < 2 ∧ (2 : Int) < 14 ∧ (14 : Int) < 30 ∧
    (∃ ws, slideWindows 14 2 30 ((30 : Int).toNat + 1) 0 = some ws ∧
      (∀ t : Int, 0 ≤ t → t < 30 → ∃ w ∈ ws, w.1 ≤ t ∧ t < min w.2 30) ∧
      List.Chain' (fun a b => min a.2 30 - b.1 = 2) ws ∧
      (∀ w ∈ ws, 0 ≤ w.1 ∧ min w.2 30 - w.1 ≤ 14) ∧
      ((14 : Int) = 14 → (2 : Int) = 2 → (30 : Int) = 30 →
        ws.map (fun w => (w.1, min w.2 30)) = [(0, 14), (12, 26), (24, 30)])) := by
  exact ⟨by decide, by decide, by decide,
    slideWindows_cover_overlap 14 2 30 (by decide) (by decide) (by decide)⟩

theorem mergeInputs_ids (c1 c2 : Encoding) (sepId : Nat) (c : Encoding)
    (h : mergeInputs c1 c2 sepId = some c) :
    c.input_ids = c1.input_ids ++ sepId :: (c2.input_ids ++ [sepId]) := by
  unfold mergeInputs at h
  rcases hm : c2.attention_mask with _ | ⟨m0, rest⟩ <;> rw [hm] at h
  · cases h
  · rcases h1 : c1.token_type_ids with _ | t1 <;>
      rcases h2 : c2.token_type_ids with _ | t2 <;> rw [h1, h2] at h
    · injection h with h; rw [← h]
    · injection h with h; rw [← h]
    · cases h
    · injection h with h; rw [← h]

theorem mergeInputs_empty_mask (c1 c2 : Encoding) (sepId : Nat)
    (h : c2.attention_mask = []) : mergeInputs c1 c2 sepId = none := by
  unfold mergeInputs
  rw [h]

theorem mergeInputs_some (c1 c2 : Encoding) (sepId : Nat)
    (hm : c2.attention_mask ≠ [])
    (htt : c1.token_type_ids.isSome → c2.token_type_ids.isSome) :
    ∃ c, mergeInputs c1 c2 sepId = some c ∧
      c.input_ids = c1.input_ids ++ sepId :: (c2.input_ids ++ [sepId]) := by
  unfold mergeInputs
  rcases hmm : c2.attention_mask with _ | ⟨m0, rest⟩
  · exact absurd hmm hm
  · rcases h1 : c1.token_type_ids with _ | t1
    · exact ⟨_, rfl, rfl⟩
    · rcases h2 : c2.token_type_ids with _ | t2
      · exfalso
        have : c2.token_type_ids.isSome := htt (by rw [h1]; rfl)
        rw [h2] at this
        cases this
      · exact ⟨_, rfl, rfl⟩

theorem pySlice_length_le (s dml : Int) (hdml : 0 ≤ dml) (l : List α) :
    ((pySlice s (s + dml) l).length : Int) ≤ dml := by
  simp only [pySlice, List.length_take, List.length_drop]
  split_ifs <;> omega

theorem mapOption_mem (f : α → Option β) :
    ∀ (l : List α) (ys : List β), mapOption f l = some ys →
      ∀ y ∈ ys, ∃ x ∈ l, f x = some y := by
  intro l
  induction l with
  | nil =>
    intro ys h y hy
    injection h with h
    rw [← h] at hy
    cases hy
  | cons a t ih =>
    intro ys h y hy
    rw [mapOption] at h
    cases fa : f a with
    | none => rw [fa] at h; cases h
    | some b =>
      rw [fa] at h
      cases rest : mapOption f t with
      | none => rw [rest] at h; cases h
      | some bs =>
        rw [rest] at h
        injection h with h
        rw [← h] at hy
        rcases List.mem_cons.mp hy with hy | hy
        · exact ⟨a, List.mem_cons_self _ _, hy ▸ fa⟩
        · obtain ⟨x, hx, hfx⟩ := ih bs rest y hy
          exact ⟨x, List.mem_cons_of_mem _ hx, hfx⟩

theorem slideWindows_snd (dml ov L : Int) :
    ∀ (fuel : Nat) (startId : Int) (ws : List (Int × Int)),
      slideWindows dml ov L fuel startId = some ws →
      ∀ w ∈ ws, w.2 = w.1 + dml := by
  intro fuel
  induction fuel with
  | zero => intro s ws h; cases h
  | succ k ih =>
    intro s ws h w hw
    rw [slideWindows_succ] at h
    by_cases hs : s < L
    · rw [if_pos hs] at h
      cases hrec : slideWindows dml ov L k
          (if s + dml < L then s + dml - ov else s + dml) with
      | none => rw [hrec] at h; cases h
      | some ws' =>
        rw [hrec] at h
        injection h with h
        rw [← h] at hw
        rcases List.mem_cons.mp hw with hw | hw
        · rw [hw]
        · exact ih _ ws' hrec w hw
    · rw [if_neg hs] at h
      injection h with h
      rw [← h] at hw
      cases hw

theorem processDoc_chunk_shape (dml ov : Int) (fuel : Nat) (qe : Encoding)
    (sepId : Nat) (de : Encoding) (chunks : List Encoding) (hdml : 0 ≤ dml)
    (h : processDoc dml ov fuel qe sepId de = some chunks) :
    ∀ c ∈ chunks, ∃ sub : List Nat,
      c.input_ids = qe.input_ids ++ sepId :: (sub ++ [sepId]) ∧
      (sub.length : Int) ≤ dml := by
  simp only [processDoc] at h
  by_cases hfit : (de.input_ids.length : Int) ≤ dml
  · rw [if_pos hfit] at h
    cases hm : mergeInputs qe de sepId with
    | none => rw [hm] at h; cases h
    | some c0 =>
      rw [hm, Option.map_some'] at h
      injection h with h
      intro c hc
      rw [← h] at hc
      simp only [List.mem_singleton] at hc
      subst hc
      exact ⟨de.input_ids, mergeInputs_ids qe de sepId c hm, hfit⟩
  · rw [if_neg hfit] at h
    cases hws : slideWindows dml ov (de.input_ids.length : Int) fuel 0 with
    | none => rw [hws] at h; cases h
    | some ws =>
      rw [hws] at h
      intro c hc
      obtain ⟨w, hwmem, hmerge⟩ := mapOption_mem _ ws chunks h c hc
      have hsnd := slideWindows_snd dml ov _ fuel 0 ws hws w hwmem
      refine ⟨pySlice w.1 w.2 de.input_ids, ?_, ?_⟩
      · exact mergeInputs_ids qe (sliceEncoding de w.1 w.2) sepId c hmerge
      · rw [hsnd]
        exact pySlice_length_le w.1 dml hdml de.input_ids

theorem createDocsLoop_chunk_shape (dml ov : Int) (fuel : Nat) (qe : Encoding)
    (sepId : Nat) (tok : Tokenizer) (hdml : 0 ≤ dml) :
    ∀ (docs : List String) (pid : Nat) (res : List Encoding × List Nat),
      createDocsLoop dml ov fuel qe sepId tok pid docs = some res →
      ∀ c ∈ res.1, ∃ sub : List Nat,
        c.input_ids = qe.input_ids ++ sepId :: (sub ++ [sepId]) ∧
        (sub.length : Int) ≤ dml := by
  intro docs
  induction docs with
  | nil =>
    intro pid res h c hc
    injection h with h
    rw [← h] at hc
    cases hc
  | cons d rest ih =>
    intro pid res h c hc
    rw [createDocsLoop] at h
    cases hp : processDoc dml ov fuel qe sepId (tok.encodeNoSpecial d) with
    | none => rw [hp] at h; cases h
    | some chunks =>
      rw [hp] at h
      cases hr : createDocsLoop dml ov fuel qe sepId tok (pid + 1) rest with
      | none => rw [hr] at h; cases h
      | some pr =>
        obtain ⟨cs, ps⟩ := pr
        rw [hr] at h
        injection h with h
        rw [← h] at hc
        rcases List.mem_append.mp hc with hc | hc
        · exact processDoc_chunk_shape dml ov fuel qe sepId _ chunks hdml hp c hc
        · exact ih (pid + 1) (cs, ps) hr c hc

/-- C5: when the query fits the budget (`query_len ≤ chunk_size - 2`), every
chunk emitted by `create_documents` has at most `chunk_size` tokens and is
exactly `query_tokens ++ [SEP] ++ document_sub_tokens ++ [SEP]`, the document
part never exceeding `doc_max_length` tokens. -/
theorem createDocuments_chunk_shape (sp : DocumentSplitter) (fuel : Nat)
    (q : String) (docs : List String) (tok : Tokenizer)
    (res : List Encoding × List Nat)
    (hq : ((tok.encodeWithSpecial q).input_ids.length : Int) ≤ sp.chunk_size - 2)
    (h : sp.createDocuments fuel q docs tok = some res) :
    ∀ c ∈ res.1, (c.input_ids.length : Int) ≤ sp.chunk_size ∧
      ∃ sub : List Nat,
        c.input_ids = (tok.encodeWithSpecial q).input_ids ++
          tok.sep_token_id :: (sub ++ [tok.sep_token_id]) := by
  intro c hc
  simp only [DocumentSplitter.createDocuments] at h
  have hdml : 0 ≤ sp.chunk_size - ((tok.encodeWithSpecial q).input_ids.length : Int) - 2 := by
    omega
  obtain ⟨sub, hids, hlen⟩ :=
    createDocsLoop_chunk_shape _ sp.chunk_overlap fuel _ tok.sep_token_id tok hdml
      docs 0 res h c hc
  refine ⟨?_, sub, hids⟩
  rw [hids]
  simp only [List.length_append, List.length_cons, List.length_nil]
  push_cast
  omega

/-- C5 (witness): a one-token query with budget 10 and a two-token document —
the single chunk is `[113, SEP, 97, 98, SEP]`, within budget and of the
required shape. -/
theorem createDocuments_chunk_shape_witness :
    ((charTok.encodeWithSpecial "q").input_ids.length : Int) ≤ (10 : Int) - 2 ∧
    DocumentSplitter.createDocuments ⟨10, 2, 32⟩ 5 "q" ["ab"] charTok =
      some ([⟨[113, 0, 97, 98, 0], [1, 1, 1, 1, 1], none⟩], [0]) ∧
    ∀ c ∈ (([⟨[113, 0, 97, 98, 0], [1, 1, 1, 1, 1], none⟩] : List Encoding),
        ([0] : List Nat)).1,
      (c.input_ids.length : Int) ≤ (10 : Int) ∧
      ∃ sub : List Nat,
        c.input_ids = (charTok.encodeWithSpecial "q").input_ids ++
          charTok.sep_token_id :: (sub ++ [charTok.sep_token_id]) := by
  refine ⟨by decide, by decide, ?_⟩
  exact createDocuments_chunk_shape ⟨10, 2, 32⟩ 5 "q" ["ab"] charTok
    ([⟨[113, 0, 97, 98, 0], [1, 1, 1, 1, 1], none⟩], [0]) (by decide) (by decide)

/-- C7 (counterexample): a zero-token document has length `0 ≤ doc_max_length
= 7`, yet `create_documents` returns no chunk at all — it fails on the empty
attention mask instead of emitting one degenerate chunk. -/
theorem createDocuments_zero_token_cex :
    ((charTok.encodeNoSpecial "").input_ids.length : Int) ≤
      10 - ((charTok.encodeWithSpecial "q").input_ids.length : Int) - 2 ∧
    DocumentSplitter.createDocuments ⟨10, 0, 32⟩ 5 "q" [""] charTok = none := by
  refine ⟨by decide, by decide⟩

/-- C7 (amended): every document with `1 ≤ doc_len ≤ doc_max_length` (mask
parallel to ids, token-type presence compatible with the query encoding)
yields exactly one chunk, of token length `query_len + doc_len + 2`. -/
theorem processDoc_single_chunk (dml ov : Int) (fuel : Nat) (qe de : Encoding)
    (sepId : Nat)
    (hwf : de.attention_mask.length = de.input_ids.length)
    (htt : qe.token_type_ids.isSome → de.token_type_ids.isSome)
    (h1 : 1 ≤ de.input_ids.length)
    (h2 : (de.input_ids.length : Int) ≤ dml) :
    ∃ c, processDoc dml ov fuel qe sepId de = some [c] ∧
      c.input_ids.length = qe.input_ids.length + de.input_ids.length + 2 := by
  have hm : de.attention_mask ≠ [] := by
    intro hc
    rw [hc] at hwf
    simp only [List.length_nil] at hwf
    omega
  obtain ⟨c, hc, hids⟩ := mergeInputs_some qe de sepId hm htt
  refine ⟨c, ?_, ?_⟩
  · simp only [processDoc, if_pos h2, hc, Option.map_some']
  · rw [hids]
    simp only [List.length_append, List.length_cons, List.length_nil]
    omega

/-- C7 (witness): a one-token query and a one-token document produce exactly
one chunk of length `1 + 1 + 2 = 4`. -/
theorem processDoc_single_chunk_witness :
    (⟨[97], [1], none⟩ : Encoding).attention_mask.length =
      (⟨[97], [1], none⟩ : Encoding).input_ids.length ∧
    ((⟨[113], [1], none⟩ : Encoding).token_type_ids.isSome →
      (⟨[97], [1], none⟩ : Encoding).token_type_ids.isSome) ∧
    1 ≤ (⟨[97], [1], none⟩ : Encoding).input_ids.length ∧
    ((⟨[97], [1], none⟩ : Encoding).input_ids.length : Int) ≤ 7 ∧
    ∃ c, processDoc 7 0 1 ⟨[113], [1], none⟩ 0 ⟨[97], [1], none⟩ = some [c] ∧
      c.input_ids.length =
        (⟨[113], [1], none⟩ : Encoding).input_ids.length +
          (⟨[97], [1], none⟩ : Encoding).input_ids.length + 2 := by
  exact ⟨by decide, by decide, by decide, by decide,
    processDoc_single_chunk 7 0 1 ⟨[113], [1], none⟩ ⟨[97], [1], none⟩ 0
      (by decide) (by decide) (by decide) (by decide)⟩

theorem createDocsLoop_fail_of_empty_doc (dml ov : Int) (fuel : Nat)
    (qe : Encoding) (sepId : Nat) (tok : Tokenizer) (d : String)
    (hids : (tok.encodeNoSpecial d).input_ids = [])
    (hmask : (tok.encodeNoSpecial d).attention_mask = [])
    (hdml : 0 ≤ dml) :
    ∀ (docs : List String) (pid : Nat), d ∈ docs →
      createDocsLoop dml ov fuel qe sepId tok pid docs = none := by
  intro docs
  induction docs with
  | nil => intro pid h; cases h
  | cons a rest ih =>
    intro pid hmem
    rw [createDocsLoop]
    rcases List.mem_cons.mp hmem with he | hm2
    · have hfail : processDoc dml ov fuel qe sepId (tok.encodeNoSpecial a) = none := by
        rw [← he]
        simp only [processDoc, hids, List.length_nil, Nat.cast_zero]
        rw [if_pos hdml, mergeInputs_empty_mask qe _ sepId hmask]
        rfl
      rw [hfail]
    · cases hp : processDoc dml ov fuel qe sepId (tok.encodeNoSpecial a) with
      | none => rfl
      | some chunks => rw [ih (pid + 1) hm2]

/-- C4 (counterexample): merging an empty document encoding fails
(`attention_mask[0]` on `[]`), and `create_documents` on a document that
tokenizes to zero tokens fails accordingly instead of emitting a degenerate
chunk. -/
theorem merge_empty_doc_cex :
    mergeInputs ⟨[113], [1], none⟩ ⟨[], [], none⟩ 0 = none ∧
    DocumentSplitter.createDocuments ⟨12, 0, 32⟩ 5 "qq" [""] charTok = none := by
  refine ⟨by decide, by decide⟩

/-- C4 (amended): whenever some document tokenizes to zero tokens (empty ids
and mask) and the query fits the budget, `create_documents` fails — the
`attention_mask[0]` indexing in `_merge_inputs` is not safe for the empty
document, and no chunk list is returned. -/
theorem createDocuments_empty_doc_fails (sp : DocumentSplitter) (fuel : Nat)
    (q : String) (docs : List String) (tok : Tokenizer) (d : String)
    (hd : d ∈ docs)
    (hids : (tok.encodeNoSpecial d).input_ids = [])
    (hmask : (tok.encodeNoSpecial d).attention_mask = [])
    (hdml : 0 ≤ sp.chunk_size - ((tok.encodeWithSpecial q).input_ids.length : Int) - 2) :
    sp.createDocuments fuel q docs tok = none := by
  simp only [DocumentSplitter.createDocuments]
  exact createDocsLoop_fail_of_empty_doc _ _ fuel _ _ tok d hids hmask hdml docs 0 hd

/-- C4 (witness): the empty-string document under the character tokenizer. -/
theorem createDocuments_empty_doc_fails_witness :
    "" ∈ [""] ∧ (charTok.encodeNoSpecial "").input_ids = [] ∧
    (charTok.encodeNoSpecial "").attention_mask = [] ∧
    (0 : Int) ≤ 10 - ((charTok.encodeWithSpecial "q").input_ids.length : Int) - 2 ∧
    DocumentSplitter.createDocuments ⟨10, 0, 32⟩ 7 "q" [""] charTok = none := by
  exact ⟨by decide, by decide, by decide, by decide,
    createDocuments_empty_doc_fails ⟨10, 0, 32⟩ 7 "q" [""] charTok ""
      (by decide) (by decide) (by decide) (by decide)⟩

theorem optionMapM_congr {α β : Type} (f g : α → Option β) :
    ∀ l : List α, (∀ a ∈ l, f a = g a) → l.mapM f = l.mapM g := by
  intro l
  induction l with
  | nil => intro _; rfl
  | cons a t ih =>
    intro h
    rw [List.mapM_cons, List.mapM_cons, h a (List.mem_cons_self a t),
      ih (fun x hx => h x (List.mem_cons_of_mem a hx))]

theorem scoreCosinePair_singleton (qv dv : List ℝ) :
    ColBERT.scoreCosinePair [qv] [dv] = some (dotR qv dv) := by
  simp only [ColBERT.scoreCosinePair, List.map_cons, List.map_nil, List.max?,
    List.foldl_nil, List.mapM_cons, List.mapM_nil, Option.bind_some, Option.pure_def,
    Option.bind_eq_bind, Option.some_bind, Option.map_some']
  rw [List.sum_cons, List.sum_nil, add_zero]

theorem specMaxSim_singleton (qv dv : List ℝ) :
    specMaxSimCosinePair [qv] [dv] = some (cosineSim qv dv) := by
  simp only [specMaxSimCosinePair, List.map_cons, List.map_nil, List.max?,
    List.foldl_nil, List.mapM_cons, List.mapM_nil, Option.bind_some, Option.pure_def,
    Option.bind_eq_bind, Option.some_bind, Option.map_some']
  rw [List.sum_cons, List.sum_nil, add_zero]

/-- C3 (counterexample): with non-unit token vectors `q = [3,4]` (norm 5) and
`d = [6,8]` (norm 10), the `cosine` branch of `ColBERT.score` returns the raw
dot product 50, while the sum of maximum cosine similarities is 1 — the code
never normalizes, so it does not compute cosine similarity. -/
theorem colbert_cosine_dot_cex :
    ColBERT.scoreCosinePair [[(3 : ℝ), 4]] [[(6 : ℝ), 8]] = some 50 ∧
    specMaxSimCosinePair [[(3 : ℝ), 4]] [[(6 : ℝ), 8]] = some 1 ∧
    (50 : ℝ) ≠ 1 := by
  have h1 : dotR [(3 : ℝ), 4] [(6 : ℝ), 8] = 50 := by
    simp [dotR]
    norm_num
  have h2 : l2norm [(3 : ℝ), 4] = 5 := by
    unfold l2norm
    rw [show ((([(3 : ℝ), 4]).map (fun x => x ^ 2)).sum) = 5 ^ 2 by simp; norm_num]
    exact Real.sqrt_sq (by norm_num)
  have h3 : l2norm [(6 : ℝ), 8] = 10 := by
    unfold l2norm
    rw [show ((([(6 : ℝ), 8]).map (fun x => x ^ 2)).sum) = 10 ^ 2 by simp; norm_num]
    exact Real.sqrt_sq (by norm_num)
  refine ⟨?_, ?_, by norm_num⟩
  · rw [scoreCosinePair_singleton, h1]
  · rw [specMaxSim_singleton]
    unfold cosineSim
    rw [h1, h2, h3]
    norm_num

/-- C3 (amended): the `cosine` branch returns, per pair, the sum over query
tokens of the maximum dot product against document tokens; this equals the
claimed sum of maximum cosine similarities exactly on unit-norm token rows. -/
theorem colbert_cosine_unit_norm (q d : List (List ℝ))
    (hq : ∀ v ∈ q, l2norm v = 1) (hd : ∀ v ∈ d, l2norm v = 1) :
    ColBERT.scoreCosinePair q d = specMaxSimCosinePair q d := by
  unfold ColBERT.scoreCosinePair specMaxSimCosinePair
  congr 1
  apply optionMapM_congr
  intro qi hqi
  congr 1
  apply List.map_congr_left
  intro dj hdj
  unfold cosineSim
  rw [hq qi hqi, hd dj hdj]
  norm_num

/-- C3 (witness): on unit vectors the dot-product score and the cosine MaxSim
score agree. -/
theorem colbert_cosine_unit_norm_witness :
    (∀ v ∈ [[(1 : ℝ)]], l2norm v = 1) ∧
    ColBERT.scoreCosinePair [[(1 : ℝ)]] [[(1 : ℝ)]] =
      specMaxSimCosinePair [[(1 : ℝ)]] [[(1 : ℝ)]] := by
  have h : ∀ v ∈ [[(1 : ℝ)]], l2norm v = 1 := by
    intro v hv
    simp only [List.mem_singleton] at hv
    subst hv
    simp [l2norm]
  exact ⟨h, colbert_cosine_unit_norm _ _ h h⟩
